import Mathlib

/-!
Shallow embedding of the core of the just-transition pipeline:

* `src/scoring/jti_scoring.py` — `min_max_normalise`,
  `compute_derived_metrics`, `compute_scores`;
* `src/agents/composer_agent.py` — `filter_england`,
  `check_missing_combinations`, `compose`.

Tabular data is modelled as lists of records; a numeric cell is an
`Option ℚ` where `none` plays the role of a pandas missing value (NaN)
and arithmetic propagates `none` exactly as pandas propagates NaN.
-/

namespace JTIS

/-- Unary NaN-propagating arithmetic on cells (`pandas` series op with a
scalar). -/
def omap (f : ℚ → ℚ) (a : Option ℚ) : Option ℚ :=
  a.map f

/-- Binary NaN-propagating arithmetic on cells: the result is missing as
soon as either operand is missing. -/
def omap2 (f : ℚ → ℚ → ℚ) (a b : Option ℚ) : Option ℚ :=
  match a, b with
  | some x, some y => some (f x y)
  | _, _ => none

def oadd (a b : Option ℚ) : Option ℚ := omap2 (fun x y => x + y) a b

def osub (a b : Option ℚ) : Option ℚ := omap2 (fun x y => x - y) a b

def omul (a b : Option ℚ) : Option ℚ := omap2 (fun x y => x * y) a b

def odiv (a b : Option ℚ) : Option ℚ := omap2 (fun x y => x / y) a b

/-- `series.replace({0: np.nan})`: a zero denominator becomes missing
before any division, so the division never produces infinity. -/
def replaceZero (a : Option ℚ) : Option ℚ :=
  if a = some 0 then none else a

/-- A `(lad_code, year)` key, the identity of one LAD-year record. -/
abbrev Key := String × ℤ

/-- Code-point lexicographic strict order on strings, as Python compares
`lad_code` strings when sorting key tuples. -/
def strLt (s t : String) : Prop :=
  s.data < t.data

instance : DecidableRel strLt := fun s t =>
  inferInstanceAs (Decidable (s.data < t.data))

/-- Lexicographic order on `(lad_code, year)` keys: Python's tuple
comparison used by `sorted` and by `sort_values(["lad_code", "year"])`. -/
def keyLE (p q : Key) : Prop :=
  strLt p.1 q.1 ∨ (p.1 = q.1 ∧ p.2 ≤ q.2)

instance : DecidableRel keyLE := fun p q =>
  inferInstanceAs (Decidable (_ ∨ _))

theorem strLt_trans {a b c : String} (h₁ : strLt a b) (h₂ : strLt b c) :
    strLt a c := by
  exact lt_trans (α := List Char) h₁ h₂

theorem strLt_asymm {a b : String} (h : strLt a b) : ¬ strLt b a := by
  exact lt_asymm (α := List Char) h

theorem strLt_total (a b : String) : strLt a b ∨ a = b ∨ strLt b a := by
  rcases lt_trichotomy (α := List Char) a.data b.data with h | h | h
  · exact Or.inl h
  · refine Or.inr (Or.inl ?_)
    cases a; cases b; exact congrArg String.mk h
  · exact Or.inr (Or.inr h)

instance : IsTrans Key keyLE := by
  constructor
  intro a b c hab hbc
  rcases hab with h₁ | ⟨e₁, y₁⟩
  · rcases hbc with h₂ | ⟨e₂, _⟩
    · exact Or.inl (strLt_trans h₁ h₂)
    · exact Or.inl (e₂ ▸ h₁)
  · rcases hbc with h₂ | ⟨e₂, y₂⟩
    · exact Or.inl (e₁ ▸ h₂)
    · exact Or.inr ⟨e₁.trans e₂, le_trans y₁ y₂⟩

instance : IsTotal Key keyLE := by
  constructor
  intro a b
  rcases strLt_total a.1 b.1 with h | h | h
  · exact Or.inl (Or.inl h)
  · rcases le_total a.2 b.2 with hy | hy
    · exact Or.inl (Or.inr ⟨h, hy⟩)
    · exact Or.inr (Or.inr ⟨h.symm, hy⟩)
  · exact Or.inr (Or.inl h)

instance : IsAntisymm Key keyLE := by
  constructor
  intro a b hab hba
  rcases hab with h₁ | ⟨e₁, y₁⟩
  · rcases hba with h₂ | ⟨e₂, _⟩
    · exact absurd h₂ (strLt_asymm h₁)
    · exact absurd (e₂ ▸ h₁) (lt_irrefl (α := List Char) _)
  · rcases hba with h₂ | ⟨_, y₂⟩
    · exact absurd (e₁ ▸ h₂) (lt_irrefl (α := List Char) _)
    · exact Prod.ext e₁ (le_antisymm y₁ y₂)

/-! ### Normalizer: `min_max_normalise` -/

/-- The `(min, max)` of the non-missing values of a column, or `none` in
the degenerate case of the source branch
`if pd.isna(s_min) or pd.isna(s_max) or s_max == s_min`. -/
def normParams (xs : List (Option ℚ)) : Option (ℚ × ℚ) :=
  match (xs.filterMap id).min?, (xs.filterMap id).max? with
  | some mn, some mx => if mx = mn then none else some (mn, mx)
  | _, _ => none

/-- One entry of the normalised column: the constant `0.5` when the
column is degenerate (`pd.Series(0.5, index=s.index)`), otherwise
`(x - min) / (max - min)` with missing entries propagated. -/
def normEntry (p : Option (ℚ × ℚ)) (x : Option ℚ) : Option ℚ :=
  match p with
  | none => some (1 / 2)
  | some (mn, mx) => x.map fun v => (v - mn) / (mx - mn)

/-- `min_max_normalise(series)`: 0–1 min-max normalisation over the
non-missing values of the whole column; returns a column of constant
`0.5` when the column has no two distinct non-missing values. -/
def min_max_normalise (xs : List (Option ℚ)) : List (Option ℚ) :=
  xs.map (normEntry (normParams xs))

/-! ### Source-table records

One record per row of the four canonical input tables, with the columns
the composition and scoring stages actually read. -/

/-- A row of `desnz_la_year.csv` (annual emissions source). -/
structure DesnzRow where
  lad_code : String
  year : ℤ
  total_emissions_scope_ktco2 : Option ℚ
  territorial_emissions_ktco2e : Option ℚ
  area_km2 : Option ℚ
deriving DecidableEq

/-- A row of `dft_la_year.csv` (annual fuel source). -/
structure DftRow where
  lad_code : String
  year : ℤ
  total_fuel_ktoe : Option ℚ
  personal_transport_ktoe : Option ℚ
  freight_transport_ktoe : Option ℚ
  bioenergy_ktoe : Option ℚ
deriving DecidableEq

/-- A row of `ons_la_year.csv` (annual population source). -/
structure OnsRow where
  lad_code : String
  year : ℤ
  population : Option ℚ
deriving DecidableEq

/-- A row of `imd_la.csv` (static deprivation source, no year). -/
structure ImdRow where
  lad_code : String
  imd_rank_avg : Option ℚ
deriving DecidableEq

/-- A row of the composed base table `jtis_base_la_year.csv`. -/
structure BaseRow where
  lad_code : String
  year : ℤ
  total_emissions_scope_ktco2 : Option ℚ
  territorial_emissions_ktco2e : Option ℚ
  area_km2 : Option ℚ
  total_fuel_ktoe : Option ℚ
  personal_transport_ktoe : Option ℚ
  freight_transport_ktoe : Option ℚ
  bioenergy_ktoe : Option ℚ
  population : Option ℚ
  imd_rank_avg : Option ℚ
deriving DecidableEq

/-! ### Composer: `composer_agent.py` -/

/-- `filter_england`: drop rows whose key is a stringified null
(`"nan"`, `"NaN"`, `"None"`) and keep only keys starting with `"E"`. -/
def filter_england {α : Type} (code : α → String) (rows : List α) : List α :=
  rows.filter fun r =>
    !(decide (code r = "nan") || decide (code r = "NaN") ||
      decide (code r = "None")) && "E".data.isPrefixOf (code r).data

/-- `pd.merge(A, B, on=…, how="inner")`: every pair of rows agreeing on
the join predicate, left row order first, combined by `comb`. -/
def joinOn {α β γ : Type} (p : α → β → Bool) (comb : α → β → γ)
    (A : List α) (B : List β) : List γ :=
  A.flatMap fun a => (B.filter fun b => p a b).map fun b => comb a b

/-- The key set of one source, `set(zip(df["lad_code"], df["year"]))`. -/
def keySet (ks : List Key) : Finset Key :=
  ks.toFinset

/-- `set.union(*lad_year_sets)`: all keys seen by any source. -/
def allKeys (kss : List (List Key)) : Finset Key :=
  kss.foldl (fun acc ks => acc ∪ keySet ks) ∅

/-- `sorted(all_keys - keyset)`: the coverage gap of one source in
ascending lexicographic key order. -/
def missingFor (all : Finset Key) (ks : Finset Key) : List Key :=
  (all \ ks).sort keyLE

/-- Per-source coverage-gap report: the true count and the first 20
missing keys. -/
structure MissingReport where
  missing_count : ℕ
  missing_examples : List Key
deriving DecidableEq

/-- `check_missing_combinations(df_list)`: per labelled source, the keys
in the union of all sources but not in that source. The fixed label
list `["desnz", "dft", "ons"]` is zipped with the input, so only the
first three tables receive a report. -/
def check_missing_combinations (kss : List (List Key)) :
    List (String × MissingReport) :=
  let all := allKeys kss
  (List.zip ["desnz", "dft", "ons"] kss).map fun nk =>
    (nk.1, ⟨(all \ keySet nk.2).card, (missingFor all (keySet nk.2)).take 20⟩)

/-- The key of a base-table row. -/
def baseKey (r : BaseRow) : Key :=
  (r.lad_code, r.year)

/-- Row order of `sort_values(["lad_code", "year"])` on the base table. -/
def baseRowLE (r s : BaseRow) : Prop :=
  keyLE (baseKey r) (baseKey s)

instance : DecidableRel baseRowLE := fun r s =>
  inferInstanceAs (Decidable (keyLE _ _))

instance : IsTrans BaseRow baseRowLE :=
  ⟨fun _ _ _ h₁ h₂ => Trans.trans (r := keyLE) h₁ h₂⟩

instance : IsTotal BaseRow baseRowLE :=
  ⟨fun r s => IsTotal.total (r := keyLE) (baseKey r) (baseKey s)⟩

/-- One base-table row assembled by the three inner merges: all columns
of the emissions row, the fuel columns of the DfT row, only `population`
from the ONS source and only `imd_rank_avg` from the IMD source. -/
def mkBaseRow (a : DesnzRow) (b : DftRow) (pop : Option ℚ)
    (imd : Option ℚ) : BaseRow :=
  ⟨a.lad_code, a.year, a.total_emissions_scope_ktco2,
   a.territorial_emissions_ktco2e, a.area_km2,
   b.total_fuel_ktoe, b.personal_transport_ktoe,
   b.freight_transport_ktoe, b.bioenergy_ktoe, pop, imd⟩

/-- `compose()`: filter the three annual sources to England, report the
pre-join coverage gaps, inner-join DESNZ + DfT on `(lad_code, year)`,
then ONS population on `(lad_code, year)`, then the static IMD source on
`lad_code` alone, and sort the result by `(lad_code, year)`. -/
def compose (desnz : List DesnzRow) (dft : List DftRow) (ons : List OnsRow)
    (imd : List ImdRow) : List BaseRow × List (String × MissingReport) :=
  let d := filter_england (fun r => r.lad_code) desnz
  let f := filter_england (fun r => r.lad_code) dft
  let o := filter_england (fun r => r.lad_code) ons
  let diagnostics := check_missing_combinations
    [d.map fun r => (r.lad_code, r.year),
     f.map fun r => (r.lad_code, r.year),
     o.map fun r => (r.lad_code, r.year)]
  let m1 := joinOn
    (fun (a : DesnzRow) (b : DftRow) =>
      decide ((b.lad_code, b.year) = (a.lad_code, a.year)))
    (fun a b => (a, b)) d f
  let m2 := joinOn
    (fun (ab : DesnzRow × DftRow) (c : OnsRow) =>
      decide ((c.lad_code, c.year) = (ab.1.lad_code, ab.1.year)))
    (fun ab c => (ab.1, ab.2, c.population)) m1 o
  let m3 := joinOn
    (fun (x : DesnzRow × DftRow × Option ℚ) (q : ImdRow) =>
      decide (q.lad_code = x.1.lad_code))
    (fun x q => mkBaseRow x.1 x.2.1 x.2.2 q.imd_rank_avg) m2 imd
  (List.insertionSort baseRowLE m3, diagnostics)

/-! ### MetricDeriver: `compute_derived_metrics` -/

/-- A base-table row extended with the row-local derived metrics
(per-capita, transport-mix ratios, spatial intensity). -/
structure PreRow extends BaseRow where
  emissions_pc_tco2 : Option ℚ
  fuel_pc_ktoe_per_1000 : Option ℚ
  personal_pc_ktoe_per_1000 : Option ℚ
  freight_pc_ktoe_per_1000 : Option ℚ
  freight_share : Option ℚ
  personal_share : Option ℚ
  bioenergy_share : Option ℚ
  emissions_density_tco2_per_km2 : Option ℚ
deriving DecidableEq

/-- A derived-metric row: the row-local metrics plus the three
year-on-year change columns. -/
structure DerivedRow extends PreRow where
  emissions_yoy_pct : Option ℚ
  fuel_yoy_pct : Option ℚ
  population_yoy_pct : Option ℚ
deriving DecidableEq

/-- The row-local part of `compute_derived_metrics`: per-capita metrics
(`metric * 1000.0 / population`), transport-mix shares
(`component / total_fuel`), and emissions density
(`emissions * 1000.0 / area`), each with its zero denominator replaced
by a missing value first. -/
def deriveRow (r : BaseRow) : PreRow :=
  let pop := replaceZero r.population
  let fuel := replaceZero r.total_fuel_ktoe
  let area := replaceZero r.area_km2
  { toBaseRow := r
    emissions_pc_tco2 :=
      odiv (omap (fun x => x * 1000) r.total_emissions_scope_ktco2) pop
    fuel_pc_ktoe_per_1000 :=
      odiv (omap (fun x => x * 1000) r.total_fuel_ktoe) pop
    personal_pc_ktoe_per_1000 :=
      odiv (omap (fun x => x * 1000) r.personal_transport_ktoe) pop
    freight_pc_ktoe_per_1000 :=
      odiv (omap (fun x => x * 1000) r.freight_transport_ktoe) pop
    freight_share := odiv r.freight_transport_ktoe fuel
    personal_share := odiv r.personal_transport_ktoe fuel
    bioenergy_share := odiv r.bioenergy_ktoe fuel
    emissions_density_tco2_per_km2 :=
      odiv (omap (fun x => x * 1000) r.total_emissions_scope_ktco2) area }

/-- One entry of `groupby("lad_code")[col].pct_change()`: missing on the
first row of a `lad_code` group, otherwise
`(current - previous) / previous`, missing whenever either value is
missing. -/
def yoyStep (st : Option (String × Option ℚ)) (x : String × Option ℚ) :
    Option ℚ :=
  match st with
  | some pv => if pv.1 = x.1 then omap2 (fun a b => (b - a) / a) pv.2 x.2
               else none
  | none => none

/-- Walk a `(lad_code, value)` column whose rows are sorted by
`lad_code`, carrying the previous row as group state. -/
def pctChangeGo (st : Option (String × Option ℚ)) :
    List (String × Option ℚ) → List (Option ℚ)
  | [] => []
  | x :: xs => yoyStep st x :: pctChangeGo (some x) xs

/-- `pct_change` over a `lad_code`-grouped column. -/
def pct_change (xs : List (String × Option ℚ)) : List (Option ℚ) :=
  pctChangeGo none xs

/-- Zip the row-local derived rows with the three year-on-year columns. -/
def attachYoY : List PreRow → List (Option ℚ) → List (Option ℚ) →
    List (Option ℚ) → List DerivedRow
  | p :: ps, e :: es, f :: fs, g :: gs =>
      ⟨p, e, f, g⟩ :: attachYoY ps es fs gs
  | _, _, _, _ => []

/-- `compute_derived_metrics(df)`: row-local derived metrics, then sort
by `(lad_code, year)` and add the three per-LAD year-on-year change
columns. -/
def compute_derived_metrics (df : List BaseRow) : List DerivedRow :=
  let s := List.insertionSort baseRowLE df
  attachYoY (s.map deriveRow)
    (pct_change (s.map fun r => (r.lad_code, r.total_emissions_scope_ktco2)))
    (pct_change (s.map fun r => (r.lad_code, r.total_fuel_ktoe)))
    (pct_change (s.map fun r => (r.lad_code, r.population)))

/-! ### Normalizer + ScoreAggregator: `compute_scores` -/

/-- A scored row: normalised metrics, category scores and the composite
JTI score. -/
structure ScoredRow extends DerivedRow where
  norm_emissions_pc : Option ℚ
  norm_emissions_density : Option ℚ
  norm_emissions_yoy : Option ℚ
  norm_fuel_pc : Option ℚ
  norm_freight_share : Option ℚ
  norm_bioenergy_share : Option ℚ
  population_yoy_abs : Option ℚ
  norm_population_yoy_abs : Option ℚ
  emissions_score : Option ℚ
  transport_score : Option ℚ
  structural_score : Option ℚ
  jti_score : Option ℚ
deriving DecidableEq

/-- One scored row, given the global min-max parameters of the seven
normalised columns of the whole table. -/
def scoreRow (pE pD pY pF pFr pB pP : Option (ℚ × ℚ)) (r : DerivedRow) :
    ScoredRow :=
  let nE := normEntry pE r.emissions_pc_tco2
  let nD := normEntry pD r.emissions_density_tco2_per_km2
  let nY := normEntry pY r.emissions_yoy_pct
  let nF := normEntry pF r.fuel_pc_ktoe_per_1000
  let nFr := normEntry pFr r.freight_share
  let nB := normEntry pB r.bioenergy_share
  let pAbs := omap (fun x => |x|) r.population_yoy_pct
  let nP := normEntry pP pAbs
  let eScore := odiv (oadd (oadd nE nD) nY) (some 3)
  let tScore := odiv (oadd (oadd nF nFr) (osub (some 1) nB)) (some 3)
  let sScore := nP
  { toDerivedRow := r
    norm_emissions_pc := nE
    norm_emissions_density := nD
    norm_emissions_yoy := nY
    norm_fuel_pc := nF
    norm_freight_share := nFr
    norm_bioenergy_share := nB
    population_yoy_abs := pAbs
    norm_population_yoy_abs := nP
    emissions_score := eScore
    transport_score := tScore
    structural_score := sScore
    jti_score :=
      oadd (oadd (omul (some (1 / 2)) eScore) (omul (some (2 / 5)) tScore))
        (omul (some (1 / 10)) sScore) }

/-- The scoring diagnostics dict: row count, year range and number of
distinct LADs. -/
structure ScoringDiagnostics where
  rows : ℕ
  year_min : Option ℤ
  year_max : Option ℤ
  lads : ℕ
deriving DecidableEq

/-- `compute_scores(df)`: min-max normalise the seven metric columns
over the full table, average them into the three category scores, and
combine those with the fixed weights `0.5`, `0.4`, `0.1` into the
composite `jti_score`. -/
def compute_scores (df : List DerivedRow) :
    List ScoredRow × ScoringDiagnostics :=
  let pE := normParams (df.map fun r => r.emissions_pc_tco2)
  let pD := normParams (df.map fun r => r.emissions_density_tco2_per_km2)
  let pY := normParams (df.map fun r => r.emissions_yoy_pct)
  let pF := normParams (df.map fun r => r.fuel_pc_ktoe_per_1000)
  let pFr := normParams (df.map fun r => r.freight_share)
  let pB := normParams (df.map fun r => r.bioenergy_share)
  let pP := normParams
    (df.map fun r => omap (fun x => |x|) r.population_yoy_pct)
  (df.map fun r => scoreRow pE pD pY pF pFr pB pP r,
   ⟨df.length, (df.map fun r => r.year).min?, (df.map fun r => r.year).max?,
    ((df.map fun r => r.lad_code).dedup).length⟩)

/-! ### Shared lemmas -/

theorem rat_min?_spec {l : List ℚ} {m : ℚ} (h : l.min? = some m) :
    m ∈ l ∧ ∀ b ∈ l, m ≤ b := by
  have anti : Std.Antisymm (fun x1 x2 : ℚ => x1 ≤ x2) :=
    ⟨fun h1 h2 => le_antisymm h1 h2⟩
  rw [List.min?_eq_some_iff (fun a => le_refl a) (fun a b => min_choice a b)
    (fun a b c => le_min_iff)] at h
  exact h

theorem rat_max?_spec {l : List ℚ} {m : ℚ} (h : l.max? = some m) :
    m ∈ l ∧ ∀ b ∈ l, b ≤ m := by
  have anti : Std.Antisymm (fun x1 x2 : ℚ => x1 ≤ x2) :=
    ⟨fun h1 h2 => le_antisymm h1 h2⟩
  rw [List.max?_eq_some_iff (fun a => le_refl a) (fun a b => max_choice a b)
    (fun a b c => max_le_iff)] at h
  exact h

theorem rat_min?_eq_none {l : List ℚ} : l.min? = none ↔ l = [] := by
  cases l <;> simp [List.min?]

theorem rat_max?_eq_none {l : List ℚ} : l.max? = none ↔ l = [] := by
  cases l <;> simp [List.max?]

/-- On a column whose non-missing values are pairwise equal (or absent),
the min/max parameters are degenerate. -/
theorem normParams_eq_none_of_const {xs : List (Option ℚ)}
    (h : ∀ a ∈ xs.filterMap id, ∀ b ∈ xs.filterMap id, a = b) :
    normParams xs = none := by
  unfold normParams
  rcases hmn : (xs.filterMap id).min? with _ | mn
  · rfl
  rcases hmx : (xs.filterMap id).max? with _ | mx
  · rfl
  have h1 := rat_min?_spec hmn
  have h2 := rat_max?_spec hmx
  have : mx = mn := h mx h2.1 mn h1.1
  simp [this]

/-- On a column with two distinct non-missing values, the min/max
parameters are defined. -/
theorem normParams_eq_some_of_distinct {xs : List (Option ℚ)}
    (h : ∃ a ∈ xs.filterMap id, ∃ b ∈ xs.filterMap id, a ≠ b) :
    ∃ mn mx, normParams xs = some (mn, mx) ∧ mn ≠ mx := by
  obtain ⟨a, ha, b, hb, hab⟩ := h
  rcases hmn : (xs.filterMap id).min? with _ | mn
  · rw [rat_min?_eq_none] at hmn
    rw [hmn] at ha
    exact absurd ha (List.not_mem_nil a)
  rcases hmx : (xs.filterMap id).max? with _ | mx
  · rw [rat_max?_eq_none] at hmx
    rw [hmx] at ha
    exact absurd ha (List.not_mem_nil a)
  have h1 := rat_min?_spec hmn
  have h2 := rat_max?_spec hmx
  have hne : mx ≠ mn := by
    intro heq
    apply hab
    have hA : a = mn := le_antisymm (heq ▸ h2.2 a ha) (h1.2 a ha)
    have hB : b = mn := le_antisymm (heq ▸ h2.2 b hb) (h1.2 b hb)
    rw [hA, hB]
  refine ⟨mn, mx, ?_, fun hc => hne hc.symm⟩
  unfold normParams
  rw [hmn, hmx]
  simp [hne]

/-! ### Claim theorems -/

/-- Claim C1: on every degenerate input column — all non-missing values
equal, or fewer than 2 non-missing values, or all values missing —
`min_max_normalise` returns a column of the same length whose every
entry is exactly `0.5`; in particular this covers a constant column of
7s of any length. -/
theorem C1_degenerate_normalise_const_half (xs : List (Option ℚ))
    (h : (∀ a ∈ xs.filterMap id, ∀ b ∈ xs.filterMap id, a = b) ∨
      (xs.filterMap id).length < 2 ∨ xs.filterMap id = []) :
    min_max_normalise xs = List.replicate xs.length (some (1 / 2)) := by
  have hconst : ∀ a ∈ xs.filterMap id, ∀ b ∈ xs.filterMap id, a = b := by
    rcases h with h | h | h
    · exact h
    · rcases hv : xs.filterMap id with _ | ⟨v, _ | ⟨w, t⟩⟩
      · simp
      · simp
      · rw [hv] at h
        simp at h
        omega
    · rw [h]
      simp
  have hp : normParams xs = none := normParams_eq_none_of_const hconst
  unfold min_max_normalise
  rw [hp]
  have : ∀ x : Option ℚ, normEntry none x = some (1 / 2) := fun _ => rfl
  calc xs.map (normEntry none)
      = xs.map (Function.const (Option ℚ) (some (1 / 2))) := by
        exact List.map_congr_left fun x _ => this x
    _ = List.replicate xs.length (some (1 / 2)) := List.map_const xs _

/-- Claim C1 witness: a length-3 column of constant 7s normalises to
constant `0.5`. -/
theorem C1_witness :
    min_max_normalise [some (7 : ℚ), some 7, some 7] =
      List.replicate 3 (some (1 / 2)) :=
  C1_degenerate_normalise_const_half [some 7, some 7, some 7]
    (Or.inl (by decide))

/-- Claim C7 counterexample: the claim that `min_max_normalise` maps
every missing entry to a missing entry fails on the degenerate column
`[some 1, none]`, whose missing entry is imputed to `0.5`. -/
theorem C7_counterexample :
    ¬ (∀ (xs : List (Option ℚ)) (i : ℕ),
        xs[i]? = some none → (min_max_normalise xs)[i]? = some none) := by
  intro h
  have := h [some 1, none] 1 rfl
  simp [min_max_normalise, normParams, normEntry, List.min?, List.max?]
    at this

/-- Claim C7 (amended): on every column having at least two distinct
non-missing values, `min_max_normalise` maps every missing entry to a
missing entry at the same position; on degenerate columns (all
non-missing values equal, or fewer than 2 non-missing values) every
entry, including the missing ones, becomes the constant `0.5`. -/
theorem C7_missing_passthrough (xs : List (Option ℚ)) (i : ℕ)
    (hd : ∃ a ∈ xs.filterMap id, ∃ b ∈ xs.filterMap id, a ≠ b)
    (hx : xs[i]? = some none) :
    (min_max_normalise xs)[i]? = some none := by
  obtain ⟨mn, mx, hp, _⟩ := normParams_eq_some_of_distinct hd
  unfold min_max_normalise
  rw [List.getElem?_map, hx, hp]
  rfl

/-- Claim C7 witness: on the column `[some 0, some 1, none]` the missing
entry at position 2 stays missing. -/
theorem C7_witness :
    (min_max_normalise [some 0, some 1, none])[2]? = some none :=
  C7_missing_passthrough [some 0, some 1, none] 2
    ⟨0, by decide, 1, by decide, by decide⟩ rfl

/-- The composite score of a scored row, written over its own stored
category-score fields. -/
theorem scoreRow_jti_eq (pE pD pY pF pFr pB pP : Option (ℚ × ℚ))
    (r : DerivedRow) :
    (scoreRow pE pD pY pF pFr pB pP r).jti_score =
      oadd (oadd
        (omul (some (1 / 2)) (scoreRow pE pD pY pF pFr pB pP r).emissions_score)
        (omul (some (2 / 5)) (scoreRow pE pD pY pF pFr pB pP r).transport_score))
        (omul (some (1 / 10))
          (scoreRow pE pD pY pF pFr pB pP r).structural_score) :=
  rfl

/-- Claim C2: every scored row's composite `jti_score` is the fixed
convex combination `0.5 * emissions_score + 0.4 * transport_score +
0.1 * structural_score` (with missing values propagated), the weights
sum to `1.0`, and whenever the three category scores are defined and in
`[0, 1]` the composite score is defined and in `[0, 1]`. -/
theorem C2_composite_convex_combination (df : List DerivedRow)
    (r : ScoredRow) (hr : r ∈ (compute_scores df).1) :
    r.jti_score =
      oadd (oadd (omul (some (1 / 2)) r.emissions_score)
        (omul (some (2 / 5)) r.transport_score))
        (omul (some (1 / 10)) r.structural_score) ∧
    (1 / 2 : ℚ) + 2 / 5 + 1 / 10 = 1 ∧
    (∀ a b c : ℚ, r.emissions_score = some a → r.transport_score = some b →
      r.structural_score = some c →
      0 ≤ a → a ≤ 1 → 0 ≤ b → b ≤ 1 → 0 ≤ c → c ≤ 1 →
      ∃ j, r.jti_score = some j ∧ 0 ≤ j ∧ j ≤ 1) := by
  unfold compute_scores at hr
  simp only [List.mem_map] at hr
  obtain ⟨r₀, _, hr₀⟩ := hr
  subst hr₀
  refine ⟨rfl, by norm_num, ?_⟩
  intro a b c ha hb hc ha0 ha1 hb0 hb1 hc0 hc1
  refine ⟨1 / 2 * a + 2 / 5 * b + 1 / 10 * c, ?_, ?_, ?_⟩
  · rw [scoreRow_jti_eq, ha, hb, hc]
    simp [oadd, omul, omap2]
  · positivity
  · nlinarith

/-- The one-row derived table used as concrete input by the scoring
witnesses. -/
def witnessDerivedRow : DerivedRow :=
  ⟨⟨⟨"E1", 2020, some 1, some 1, some 1, some 1, some 1, some 1, some 1,
    some 1, some 1⟩, some 1, some 1, some 1, some 1, some 1, some 1,
    some 1, some 1⟩, none, none, none⟩

unseal Rat.mul Rat.inv Rat.add Rat.sub in
/-- Claim C2 witness: on a concrete one-row table the composite score is
defined and lies in `[0, 1]`. -/
theorem C2_witness :
    ∃ r ∈ (compute_scores [witnessDerivedRow]).1,
      ∃ j, r.jti_score = some j ∧ 0 ≤ j ∧ j ≤ 1 := by
  refine ⟨scoreRow none none none none none none none witnessDerivedRow,
    by decide, ?_⟩
  exact ((C2_composite_convex_combination [witnessDerivedRow]
    (scoreRow none none none none none none none witnessDerivedRow)
    (by decide)).2.2
    (1 / 2) (1 / 2) (1 / 2) (by decide) (by decide) (by decide)
    (by decide) (by decide) (by decide) (by decide) (by decide) (by decide))

/-! ### Positional lemmas for the derived-metric stage -/

theorem omap2_none_right (f : ℚ → ℚ → ℚ) (a : Option ℚ) :
    omap2 f a none = none := by
  cases a <;> rfl

theorem pctChangeGo_length (st : Option (String × Option ℚ))
    (xs : List (String × Option ℚ)) :
    (pctChangeGo st xs).length = xs.length := by
  induction xs generalizing st with
  | nil => rfl
  | cons x t ih => simp [pctChangeGo, ih]

theorem pctChangeGo_getElem?_zero (st : Option (String × Option ℚ))
    (xs : List (String × Option ℚ)) :
    (pctChangeGo st xs)[0]? = xs[0]?.map (yoyStep st) := by
  cases xs <;> simp [pctChangeGo]

theorem pctChangeGo_getElem?_succ (st : Option (String × Option ℚ))
    (xs : List (String × Option ℚ)) (i : ℕ) :
    (pctChangeGo st xs)[i + 1]? =
      xs[i]?.bind fun p => xs[i + 1]?.map (yoyStep (some p)) := by
  induction xs generalizing st i with
  | nil => rfl
  | cons x t ih =>
    cases i with
    | zero => simp [pctChangeGo, pctChangeGo_getElem?_zero]
    | succ j => simpa [pctChangeGo] using ih (some x) j

theorem attachYoY_length (ps : List PreRow) (es fs gs : List (Option ℚ))
    (he : es.length = ps.length) (hf : fs.length = ps.length)
    (hg : gs.length = ps.length) :
    (attachYoY ps es fs gs).length = ps.length := by
  induction ps generalizing es fs gs with
  | nil =>
    simp only [List.length_nil, List.length_eq_zero] at he hf hg
    subst he; subst hf; subst hg; rfl
  | cons p pt ih =>
    cases es with
    | nil => simp at he
    | cons e et =>
      cases fs with
      | nil => simp at hf
      | cons f ft =>
        cases gs with
        | nil => simp at hg
        | cons g gt =>
          simp only [List.length_cons, Nat.succ.injEq] at he hf hg
          simp [attachYoY, ih et ft gt he hf hg]

theorem attachYoY_getElem? (ps : List PreRow) (es fs gs : List (Option ℚ))
    (he : es.length = ps.length) (hf : fs.length = ps.length)
    (hg : gs.length = ps.length) (i : ℕ) :
    (attachYoY ps es fs gs)[i]? =
      ps[i]?.bind fun p => es[i]?.bind fun e => fs[i]?.bind fun f =>
        gs[i]?.map fun g => (⟨p, e, f, g⟩ : DerivedRow) := by
  induction ps generalizing es fs gs i with
  | nil =>
    simp only [List.length_nil, List.length_eq_zero] at he hf hg
    subst he; subst hf; subst hg
    cases i <;> rfl
  | cons p pt ih =>
    cases es with
    | nil => simp at he
    | cons e et =>
      cases fs with
      | nil => simp at hf
      | cons f ft =>
        cases gs with
        | nil => simp at hg
        | cons g gt =>
          simp only [List.length_cons, Nat.succ.injEq] at he hf hg
          cases i with
          | zero => simp [attachYoY]
          | succ j => simpa [attachYoY] using ih et ft gt he hf hg j

theorem attachYoY_mem (ps : List PreRow) (es fs gs : List (Option ℚ))
    (he : es.length = ps.length) (hf : fs.length = ps.length)
    (hg : gs.length = ps.length) {r : DerivedRow}
    (hr : r ∈ attachYoY ps es fs gs) : r.toPreRow ∈ ps := by
  induction ps generalizing es fs gs with
  | nil =>
    simp only [List.length_nil, List.length_eq_zero] at he hf hg
    subst he; subst hf; subst hg
    exact absurd hr (List.not_mem_nil r)
  | cons p pt ih =>
    cases es with
    | nil => simp at he
    | cons e et =>
      cases fs with
      | nil => simp at hf
      | cons f ft =>
        cases gs with
        | nil => simp at hg
        | cons g gt =>
          simp only [List.length_cons, Nat.succ.injEq] at he hf hg
          rcases List.mem_cons.mp hr with h | h
          · subst h; exact List.mem_cons_self _ _
          · exact List.mem_cons_of_mem _ (ih et ft gt he hf hg h)

/-- Every row of `compute_derived_metrics df` is the row-local
derivation of some input row. -/
theorem mem_compute_derived_metrics {df : List BaseRow} {r : DerivedRow}
    (hr : r ∈ compute_derived_metrics df) :
    ∃ b ∈ df, r.toPreRow = deriveRow b := by
  unfold compute_derived_metrics at hr
  have hmem := attachYoY_mem _ _ _ _
    (by simp [pct_change, pctChangeGo_length])
    (by simp [pct_change, pctChangeGo_length])
    (by simp [pct_change, pctChangeGo_length]) hr
  obtain ⟨b, hb, hb'⟩ := List.mem_map.mp hmem
  exact ⟨b, (List.perm_insertionSort baseRowLE df).mem_iff.mp hb, hb'.symm⟩

/-- Claim C4: in every row of `compute_derived_metrics`, a per-capita,
ratio or density metric whose denominator (population, total fuel,
area) is zero is a missing value — never infinity and never an error —
and whenever the denominator is non-zero and the numerator defined, the
metric is the corresponding quotient. -/
theorem C4_zero_denominators_missing (df : List BaseRow) (r : DerivedRow)
    (hr : r ∈ compute_derived_metrics df) :
    (r.population = some 0 → r.emissions_pc_tco2 = none ∧
      r.fuel_pc_ktoe_per_1000 = none ∧ r.personal_pc_ktoe_per_1000 = none ∧
      r.freight_pc_ktoe_per_1000 = none) ∧
    (r.total_fuel_ktoe = some 0 → r.freight_share = none ∧
      r.personal_share = none ∧ r.bioenergy_share = none) ∧
    (r.area_km2 = some 0 → r.emissions_density_tco2_per_km2 = none) ∧
    (∀ p : ℚ, r.population = some p → p ≠ 0 →
      (∀ x, r.total_emissions_scope_ktco2 = some x →
        r.emissions_pc_tco2 = some (x * 1000 / p)) ∧
      (∀ x, r.total_fuel_ktoe = some x →
        r.fuel_pc_ktoe_per_1000 = some (x * 1000 / p)) ∧
      (∀ x, r.personal_transport_ktoe = some x →
        r.personal_pc_ktoe_per_1000 = some (x * 1000 / p)) ∧
      (∀ x, r.freight_transport_ktoe = some x →
        r.freight_pc_ktoe_per_1000 = some (x * 1000 / p))) ∧
    (∀ t : ℚ, r.total_fuel_ktoe = some t → t ≠ 0 →
      (∀ x, r.freight_transport_ktoe = some x →
        r.freight_share = some (x / t)) ∧
      (∀ x, r.personal_transport_ktoe = some x →
        r.personal_share = some (x / t)) ∧
      (∀ x, r.bioenergy_ktoe = some x →
        r.bioenergy_share = some (x / t))) ∧
    (∀ a : ℚ, r.area_km2 = some a → a ≠ 0 →
      ∀ x, r.total_emissions_scope_ktco2 = some x →
        r.emissions_density_tco2_per_km2 = some (x * 1000 / a)) := by
  obtain ⟨b, _, hpre⟩ := mem_compute_derived_metrics hr
  have hbase : r.toBaseRow = b := by rw [hpre]; rfl
  have hpop : r.population = b.population := by rw [← hbase]
  have hfuel : r.total_fuel_ktoe = b.total_fuel_ktoe := by rw [← hbase]
  have harea : r.area_km2 = b.area_km2 := by rw [← hbase]
  have hem : r.total_emissions_scope_ktco2 =
      b.total_emissions_scope_ktco2 := by rw [← hbase]
  have hper : r.personal_transport_ktoe = b.personal_transport_ktoe := by
    rw [← hbase]
  have hfr : r.freight_transport_ktoe = b.freight_transport_ktoe := by
    rw [← hbase]
  have hbio : r.bioenergy_ktoe = b.bioenergy_ktoe := by rw [← hbase]
  have e1 : r.emissions_pc_tco2 = (deriveRow b).emissions_pc_tco2 := by
    rw [hpre]
  have e2 : r.fuel_pc_ktoe_per_1000 = (deriveRow b).fuel_pc_ktoe_per_1000 := by
    rw [hpre]
  have e3 : r.personal_pc_ktoe_per_1000 =
      (deriveRow b).personal_pc_ktoe_per_1000 := by rw [hpre]
  have e4 : r.freight_pc_ktoe_per_1000 =
      (deriveRow b).freight_pc_ktoe_per_1000 := by rw [hpre]
  have e5 : r.freight_share = (deriveRow b).freight_share := by rw [hpre]
  have e6 : r.personal_share = (deriveRow b).personal_share := by rw [hpre]
  have e7 : r.bioenergy_share = (deriveRow b).bioenergy_share := by rw [hpre]
  have e8 : r.emissions_density_tco2_per_km2 =
      (deriveRow b).emissions_density_tco2_per_km2 := by rw [hpre]
  refine ⟨?_, ?_, ?_, ?_, ?_, ?_⟩
  · intro h0
    rw [hpop] at h0
    rw [e1, e2, e3, e4]
    simp [deriveRow, replaceZero, h0, odiv, omap2_none_right]
  · intro h0
    rw [hfuel] at h0
    rw [e5, e6, e7]
    simp [deriveRow, replaceZero, h0, odiv, omap2_none_right]
  · intro h0
    rw [harea] at h0
    rw [e8]
    simp [deriveRow, replaceZero, h0, odiv, omap2_none_right]
  · intro p hp hpne
    rw [hpop] at hp
    have hrz : replaceZero b.population = some p := by
      simp [replaceZero, hp]
      intro hc
      exact absurd (by simpa [hc] using hp) (by simpa [hc] using hpne ∘
        Option.some.inj)
    refine ⟨?_, ?_, ?_, ?_⟩ <;> intro x hx
    · rw [hem] at hx
      rw [e1]
      simp [deriveRow, hrz, hx, odiv, omap, omap2]
    · rw [hfuel] at hx
      rw [e2]
      simp [deriveRow, hrz, hx, odiv, omap, omap2]
    · rw [hper] at hx
      rw [e3]
      simp [deriveRow, hrz, hx, odiv, omap, omap2]
    · rw [hfr] at hx
      rw [e4]
      simp [deriveRow, hrz, hx, odiv, omap, omap2]
  · intro t ht htne
    rw [hfuel] at ht
    have hrz : replaceZero b.total_fuel_ktoe = some t := by
      simp [replaceZero, ht]
      intro hc
      exact absurd (by simpa [hc] using ht) (by simpa [hc] using htne ∘
        Option.some.inj)
    refine ⟨?_, ?_, ?_⟩ <;> intro x hx
    · rw [hfr] at hx
      rw [e5]
      simp [deriveRow, hrz, hx, odiv, omap2]
    · rw [hper] at hx
      rw [e6]
      simp [deriveRow, hrz, hx, odiv, omap2]
    · rw [hbio] at hx
      rw [e7]
      simp [deriveRow, hrz, hx, odiv, omap2]
  · intro a ha hane x hx
    rw [harea] at ha
    rw [hem] at hx
    have hrz : replaceZero b.area_km2 = some a := by
      simp [replaceZero, ha]
      intro hc
      exact absurd (by simpa [hc] using ha) (by simpa [hc] using hane ∘
        Option.some.inj)
    rw [e8]
    simp [deriveRow, hrz, hx, odiv, omap, omap2]

unseal Rat.mul Rat.inv Rat.add Rat.sub in
/-- Claim C4 witness: a concrete row with population 0, fuel 0 and
area 2 has missing per-capita and share metrics and a computed
density. -/
theorem C4_witness :
    ∃ r ∈ compute_derived_metrics
      [⟨"E1", 2020, some 3, some 1, some 2, some 0, some 1, some 1, some 1,
        some 0, some 1⟩],
      r.emissions_pc_tco2 = none ∧ r.freight_share = none ∧
      r.emissions_density_tco2_per_km2 = some (3 * 1000 / 2) := by
  refine ⟨_, List.mem_cons_self _ _, ?_⟩
  have h := C4_zero_denominators_missing
    [⟨"E1", 2020, some 3, some 1, some 2, some 0, some 1, some 1, some 1,
      some 0, some 1⟩] _ (List.mem_cons_self _ _)
  refine ⟨(h.1 (by decide)).1, ((h.2.1) (by decide)).1, ?_⟩
  exact (h.2.2.2.2.2 2 (by decide) (by decide) 3 (by decide))

theorem pct_change_col_zero (s : List BaseRow) (v : BaseRow → Option ℚ) :
    (pct_change (s.map fun r => (r.lad_code, v r)))[0]? =
      s[0]?.map fun _ => none := by
  rw [pct_change, pctChangeGo_getElem?_zero, List.getElem?_map]
  cases s[0]? <;> simp [yoyStep]

theorem pct_change_col_succ (s : List BaseRow) (v : BaseRow → Option ℚ)
    (i : ℕ) :
    (pct_change (s.map fun r => (r.lad_code, v r)))[i + 1]? =
      s[i]?.bind fun p => s[i + 1]?.map fun c =>
        yoyStep (some (p.lad_code, v p)) (c.lad_code, v c) := by
  rw [pct_change, pctChangeGo_getElem?_succ, List.getElem?_map,
    List.getElem?_map]
  cases s[i]? <;> cases s[i + 1]? <;> simp

theorem pct_change_length (xs : List (String × Option ℚ)) :
    (pct_change xs).length = xs.length :=
  pctChangeGo_length none xs

/-- Claim C3: in `compute_derived_metrics` the year-on-year change
columns follow percent-change-from-previous-period semantics per
`lad_code` group over the `(lad_code, year)`-sorted rows: the first row
of each group has a missing change (not zero and not an error), and a
row whose predecessor belongs to the same LAD with both values defined
carries `(current - previous) / previous`. -/
theorem C3_yoy_pct_change (df : List BaseRow) :
    (∀ p : DerivedRow, (compute_derived_metrics df)[0]? = some p →
      p.emissions_yoy_pct = none ∧ p.fuel_yoy_pct = none ∧
      p.population_yoy_pct = none) ∧
    (∀ (i : ℕ) (p c : DerivedRow),
      (compute_derived_metrics df)[i]? = some p →
      (compute_derived_metrics df)[i + 1]? = some c →
      (p.lad_code ≠ c.lad_code → c.emissions_yoy_pct = none ∧
        c.fuel_yoy_pct = none ∧ c.population_yoy_pct = none) ∧
      (p.lad_code = c.lad_code →
        (∀ a b : ℚ, p.total_emissions_scope_ktco2 = some a →
          c.total_emissions_scope_ktco2 = some b →
          c.emissions_yoy_pct = some ((b - a) / a)) ∧
        (∀ a b : ℚ, p.total_fuel_ktoe = some a →
          c.total_fuel_ktoe = some b →
          c.fuel_yoy_pct = some ((b - a) / a)) ∧
        (∀ a b : ℚ, p.population = some a → c.population = some b →
          c.population_yoy_pct = some ((b - a) / a)))) := by
  have hlE : (pct_change ((List.insertionSort baseRowLE df).map fun r =>
      (r.lad_code, r.total_emissions_scope_ktco2))).length =
      ((List.insertionSort baseRowLE df).map deriveRow).length := by
    simp [pct_change, pctChangeGo_length]
  have hlF : (pct_change ((List.insertionSort baseRowLE df).map fun r =>
      (r.lad_code, r.total_fuel_ktoe))).length =
      ((List.insertionSort baseRowLE df).map deriveRow).length := by
    simp [pct_change, pctChangeGo_length]
  have hlP : (pct_change ((List.insertionSort baseRowLE df).map fun r =>
      (r.lad_code, r.population))).length =
      ((List.insertionSort baseRowLE df).map deriveRow).length := by
    simp [pct_change, pctChangeGo_length]
  constructor
  · intro p hp
    unfold compute_derived_metrics at hp
    rw [attachYoY_getElem? _ _ _ _ hlE hlF hlP 0, List.getElem?_map,
      pct_change_col_zero, pct_change_col_zero, pct_change_col_zero] at hp
    rcases h0 : (List.insertionSort baseRowLE df)[0]? with _ | b <;>
      rw [h0] at hp
    · simp at hp
    · simp only [Option.map_some', Option.bind_some] at hp
      cases hp
      exact ⟨rfl, rfl, rfl⟩
  · intro i p c hp hc
    unfold compute_derived_metrics at hp hc
    rw [attachYoY_getElem? _ _ _ _ hlE hlF hlP i, List.getElem?_map] at hp
    rw [attachYoY_getElem? _ _ _ _ hlE hlF hlP (i + 1), List.getElem?_map,
      pct_change_col_succ, pct_change_col_succ, pct_change_col_succ] at hc
    rcases hi : (List.insertionSort baseRowLE df)[i]? with _ | bi <;>
      rw [hi] at hp hc
    · simp at hp
    rcases hi1 : (List.insertionSort baseRowLE df)[i + 1]? with _ | bc <;>
      rw [hi1] at hc
    · simp at hc
    simp only [Option.map_some', Option.bind_some] at hc
    cases hc
    have hilt : i < (List.insertionSort baseRowLE df).length := by
      rcases List.getElem?_eq_some_iff.mp hi with ⟨h, _⟩
      exact h
    obtain ⟨e, he⟩ : ∃ e, (pct_change ((List.insertionSort baseRowLE df).map
        fun r => (r.lad_code, r.total_emissions_scope_ktco2)))[i]? = some e := by
      refine ⟨_, List.getElem?_eq_getElem ?_⟩
      rw [hlE, List.length_map]
      exact hilt
    obtain ⟨f, hf⟩ : ∃ f, (pct_change ((List.insertionSort baseRowLE df).map
        fun r => (r.lad_code, r.total_fuel_ktoe)))[i]? = some f := by
      refine ⟨_, List.getElem?_eq_getElem ?_⟩
      rw [hlF, List.length_map]
      exact hilt
    obtain ⟨g, hg⟩ : ∃ g, (pct_change ((List.insertionSort baseRowLE df).map
        fun r => (r.lad_code, r.population)))[i]? = some g := by
      refine ⟨_, List.getElem?_eq_getElem ?_⟩
      rw [hlP, List.length_map]
      exact hilt
    rw [he, hf, hg] at hp
    simp only [Option.map_some', Option.bind_some] at hp
    cases hp
    have hplad : (⟨deriveRow bi, e, f, g⟩ : DerivedRow).lad_code =
        bi.lad_code := rfl
    constructor
    · intro hne
      have hne' : bi.lad_code ≠ bc.lad_code := hne
      refine ⟨?_, ?_, ?_⟩ <;> simp [yoyStep, hne']
    · intro heq
      have heq' : bi.lad_code = bc.lad_code := heq
      refine ⟨?_, ?_, ?_⟩
      · intro a b ha hb
        have ha' : bi.total_emissions_scope_ktco2 = some a := ha
        have hb' : bc.total_emissions_scope_ktco2 = some b := hb
        show yoyStep (some (bi.lad_code, bi.total_emissions_scope_ktco2))
          (bc.lad_code, bc.total_emissions_scope_ktco2) = some ((b - a) / a)
        simp [yoyStep, heq', ha', hb', omap2]
      · intro a b ha hb
        have ha' : bi.total_fuel_ktoe = some a := ha
        have hb' : bc.total_fuel_ktoe = some b := hb
        show yoyStep (some (bi.lad_code, bi.total_fuel_ktoe))
          (bc.lad_code, bc.total_fuel_ktoe) = some ((b - a) / a)
        simp [yoyStep, heq', ha', hb', omap2]
      · intro a b ha hb
        have ha' : bi.population = some a := ha
        have hb' : bc.population = some b := hb
        show yoyStep (some (bi.lad_code, bi.population))
          (bc.lad_code, bc.population) = some ((b - a) / a)
        simp [yoyStep, heq', ha', hb', omap2]

/-- Concrete base row for 2011 used by the C3 witness: emissions 100. -/
def c3Row2011 : BaseRow :=
  ⟨"E1", 2011, some 100, some 1, some 1, some 1, some 1, some 1, some 1,
    some 1, some 1⟩

/-- Concrete base row for 2012 used by the C3 witness: emissions 110. -/
def c3Row2012 : BaseRow :=
  ⟨"E1", 2012, some 110, some 1, some 1, some 1, some 1, some 1, some 1,
    some 1, some 1⟩

unseal Rat.mul Rat.inv Rat.add Rat.sub in
/-- Claim C3 witness: for a LAD with emissions `[100, 110]` in
consecutive years, the first year's change is missing and the second
year's change is `0.10`. -/
theorem C3_witness :
    ∃ p c : DerivedRow,
      (compute_derived_metrics [c3Row2011, c3Row2012])[0]? = some p ∧
      (compute_derived_metrics [c3Row2011, c3Row2012])[1]? = some c ∧
      p.emissions_yoy_pct = none ∧ c.emissions_yoy_pct = some (1 / 10) := by
  refine ⟨⟨deriveRow c3Row2011, none, none, none⟩,
    ⟨deriveRow c3Row2012,
      yoyStep (some ("E1", some 100)) ("E1", some 110),
      yoyStep (some ("E1", some 1)) ("E1", some 1),
      yoyStep (some ("E1", some 1)) ("E1", some 1)⟩,
    by decide, by decide, ?_, ?_⟩
  · exact ((C3_yoy_pct_change [c3Row2011, c3Row2012]).1 _ (by decide)).1
  · exact (((C3_yoy_pct_change [c3Row2011, c3Row2012]).2 0
      ⟨deriveRow c3Row2011, none, none, none⟩
      ⟨deriveRow c3Row2012,
        yoyStep (some ("E1", some 100)) ("E1", some 110),
        yoyStep (some ("E1", some 1)) ("E1", some 1),
        yoyStep (some ("E1", some 1)) ("E1", some 1)⟩
      (by decide) (by decide)).2 (by decide)).1 100 110 (by decide) (by decide)

theorem zip_getElem? {α β : Type} (as : List α) (bs : List β) (i : ℕ) :
    (List.zip as bs)[i]? = as[i]?.bind fun a => bs[i]?.map fun b => (a, b) := by
  induction as generalizing bs i with
  | nil => simp
  | cons a t ih =>
    cases bs with
    | nil => simp
    | cons b bt =>
      cases i with
      | zero => simp
      | succ j => simpa using ih bt j

/-- Claim C5 counterexample: with four input tables only three reports
are produced (the fixed label list truncates), so the function does not
report a coverage gap for each table. -/
theorem C5_counterexample :
    (check_missing_combinations [[("E1", (2020 : ℤ))], [("E2", 2020)],
      [("E3", 2020)], [("E4", 2020)]]).length = 3 ∧
    ([[("E1", (2020 : ℤ))], [("E2", 2020)], [("E3", 2020)],
      [("E4", 2020)]] : List (List Key)).length = 4 := by
  constructor
  · rfl
  · rfl

/-- Claim C5 (amended): each report produced by
`check_missing_combinations` (one per table for the first three tables —
the fixed label list `["desnz", "dft", "ons"]` truncates the report list
to three, while the key union still ranges over all input tables) has
`missing_count` equal to the exact size of (union of all tables' keys)
minus (that table's keys), and `missing_examples` equal to the first 20
of those keys in ascending lexicographic order; on three tables with
pairwise disjoint key sets the reported `missing_count` of each table
equals the sum of the other two tables' key-set sizes. -/
theorem C5_missing_combinations (kss : List (List Key)) (j : ℕ)
    (nr : String × MissingReport)
    (h : (check_missing_combinations kss)[j]? = some nr) :
    (∃ ks, kss[j]? = some ks ∧
      nr.2.missing_count = ((allKeys kss) \ keySet ks).card ∧
      nr.2.missing_examples = (missingFor (allKeys kss) (keySet ks)).take 20 ∧
      List.Sorted keyLE nr.2.missing_examples) ∧
    (∀ A B C : List Key, kss = [A, B, C] →
      Disjoint (keySet A) (keySet B) → Disjoint (keySet A) (keySet C) →
      Disjoint (keySet B) (keySet C) →
      (j = 0 → nr.2.missing_count = (keySet B).card + (keySet C).card) ∧
      (j = 1 → nr.2.missing_count = (keySet A).card + (keySet C).card) ∧
      (j = 2 → nr.2.missing_count = (keySet A).card + (keySet B).card)) := by
  unfold check_missing_combinations at h
  rw [List.getElem?_map, zip_getElem?] at h
  cases hL : (["desnz", "dft", "ons"] : List String)[j]? with
  | none => rw [hL] at h; simp at h
  | some label =>
    rw [hL] at h
    cases hK : kss[j]? with
    | none => rw [hK] at h; simp at h
    | some ks =>
      rw [hK] at h
      simp only [Option.map_some', Option.bind_some] at h
      cases h
      constructor
      · refine ⟨ks, rfl, rfl, rfl, ?_⟩
        exact ((Finset.sort_sorted keyLE _).sublist
          (List.take_sublist _ _))
      · intro A B C hkss hAB hAC hBC
        subst hkss
        have hall : allKeys [A, B, C] =
            (keySet A ∪ keySet B) ∪ keySet C := by
          simp [allKeys, List.foldl]
        refine ⟨?_, ?_, ?_⟩ <;> intro hj <;> subst hj <;>
          simp only [List.getElem?_cons_zero, List.getElem?_cons_succ,
            Option.some.injEq] at hK <;> subst hK
        · show ((allKeys [A, B, C]) \ keySet A).card =
            (keySet B).card + (keySet C).card
          rw [hall, Finset.union_sdiff_distrib, Finset.union_sdiff_distrib,
            Finset.sdiff_self, Finset.empty_union,
            Finset.sdiff_eq_self_of_disjoint hAB.symm,
            Finset.sdiff_eq_self_of_disjoint hAC.symm]
          exact Finset.card_union_of_disjoint hBC
        · show ((allKeys [A, B, C]) \ keySet B).card =
            (keySet A).card + (keySet C).card
          rw [hall, Finset.union_sdiff_distrib, Finset.union_sdiff_distrib,
            Finset.sdiff_self, Finset.union_empty,
            Finset.sdiff_eq_self_of_disjoint hAB,
            Finset.sdiff_eq_self_of_disjoint hBC.symm]
          exact Finset.card_union_of_disjoint hAC
        · show ((allKeys [A, B, C]) \ keySet C).card =
            (keySet A).card + (keySet B).card
          rw [hall, Finset.union_sdiff_distrib, Finset.sdiff_self,
            Finset.union_empty, Finset.sdiff_eq_self_of_disjoint
              (Finset.disjoint_union_left.mpr ⟨hAC, hBC⟩)]
          exact Finset.card_union_of_disjoint hAB

unseal List.merge List.mergeSort in
/-- Claim C5 witness: three disjoint singleton tables produce, for the
first source, a report with `missing_count = 2` and sorted examples. -/
theorem C5_witness :
    ∃ nr : String × MissingReport,
      (check_missing_combinations [[("E1", (2020 : ℤ))], [("E2", 2020)],
        [("E3", 2020)]])[0]? = some nr ∧
      nr.2.missing_count = 2 ∧
      nr.2.missing_examples = [("E2", 2020), ("E3", 2020)] := by
  refine ⟨("desnz", ⟨2, [("E2", 2020), ("E3", 2020)]⟩), by decide, ?_, rfl⟩
  exact ((C5_missing_combinations
    [[("E1", (2020 : ℤ))], [("E2", 2020)], [("E3", 2020)]] 0
    ("desnz", ⟨2, [("E2", 2020), ("E3", 2020)]⟩) (by decide)).2
    [("E1", (2020 : ℤ))] [("E2", 2020)] [("E3", 2020)] rfl
    (by decide) (by decide) (by decide)).1 rfl |>.trans (by decide)

/-! ### Join fan-out lemmas -/

theorem filter_length_le_one {β κ : Type} [DecidableEq κ] (g : β → κ)
    (B : List β) (hB : (B.map g).Nodup) (k : κ) :
    (B.filter fun b => decide (g b = k)).length ≤ 1 := by
  induction B with
  | nil => simp
  | cons b t ih =>
    simp only [List.map_cons, List.nodup_cons] at hB
    by_cases hbk : g b = k
    · have ht : t.filter (fun b => decide (g b = k)) = [] := by
        rw [List.filter_eq_nil_iff]
        intro x hx
        simp only [decide_eq_true_eq]
        intro hgx
        exact hB.1 (hbk ▸ hgx ▸ List.mem_map_of_mem g hx)
      simp [List.filter_cons, hbk, ht]
    · simpa [List.filter_cons, hbk] using ih hB.2

/-- An inner join against a table whose join keys are unique never fans
out: the joined keys form a sublist of the left table's keys. -/
theorem joinOn_keys_sublist {α β γ κ₁ κ₂ : Type} [DecidableEq κ₁]
    (f : α → κ₁) (g : β → κ₁) (keyA : α → κ₂) (keyC : γ → κ₂)
    (comb : α → β → γ) (A : List α) (B : List β)
    (hB : (B.map g).Nodup)
    (hk : ∀ a b, g b = f a → keyC (comb a b) = keyA a) :
    ((joinOn (fun a b => decide (g b = f a)) comb A B).map keyC).Sublist
      (A.map keyA) := by
  induction A with
  | nil => simp [joinOn]
  | cons a t ih =>
    simp only [joinOn, List.flatMap_cons, List.map_append, List.map_cons]
    rcases hfil : B.filter (fun b => decide (g b = f a)) with _ | ⟨b, rest⟩
    · simp only [List.map_nil, List.nil_append]
      exact List.Sublist.cons _ (by simpa [joinOn] using ih)
    · have hr : rest = [] := by
        have h1 := filter_length_le_one g B hB (f a)
        rw [hfil] at h1
        simpa using List.length_eq_zero.mp (by simpa using h1)
      subst hr
      have hb : g b = f a := by
        have hmem : b ∈ B.filter (fun b => decide (g b = f a)) := by
          rw [hfil]
          exact List.mem_cons_self _ _
        simpa using (List.mem_filter.mp hmem).2
      simp only [List.map_cons, List.map_nil, List.cons_append,
        List.nil_append, hk a b hb]
      exact List.Sublist.cons₂ _ (by simpa [joinOn] using ih)

theorem attachYoY_map_key (ps : List PreRow) (es fs gs : List (Option ℚ))
    (he : es.length = ps.length) (hf : fs.length = ps.length)
    (hg : gs.length = ps.length) :
    ((attachYoY ps es fs gs).map fun r => (r.lad_code, r.year)) =
      ps.map fun p => (p.lad_code, p.year) := by
  induction ps generalizing es fs gs with
  | nil =>
    simp only [List.length_nil, List.length_eq_zero] at he hf hg
    subst he; subst hf; subst hg; rfl
  | cons p pt ih =>
    cases es with
    | nil => simp at he
    | cons e et =>
      cases fs with
      | nil => simp at hf
      | cons f ft =>
        cases gs with
        | nil => simp at hg
        | cons g gt =>
          simp only [List.length_cons, Nat.succ.injEq] at he hf hg
          simp only [attachYoY, List.map_cons]
          rw [ih et ft gt he hf hg]

/-- The keys of the derived table are exactly the keys of the sorted
base table. -/
theorem compute_derived_metrics_keys (df : List BaseRow) :
    ((compute_derived_metrics df).map fun r => (r.lad_code, r.year)) =
      (List.insertionSort baseRowLE df).map fun b => (b.lad_code, b.year) := by
  unfold compute_derived_metrics
  rw [attachYoY_map_key _ _ _ _
    (by simp [pct_change, pctChangeGo_length])
    (by simp [pct_change, pctChangeGo_length])
    (by simp [pct_change, pctChangeGo_length])]
  rw [List.map_map]
  rfl

theorem compute_derived_metrics_length (df : List BaseRow) :
    (compute_derived_metrics df).length = df.length := by
  have h := congrArg List.length (compute_derived_metrics_keys df)
  simp only [List.length_map] at h
  rw [h, (List.perm_insertionSort baseRowLE df).length_eq]

theorem compute_scores_keys (df : List DerivedRow) :
    ((compute_scores df).1.map fun r => (r.lad_code, r.year)) =
      df.map fun r => (r.lad_code, r.year) := by
  unfold compute_scores
  rw [List.map_map]
  rfl

/-- Claim C6: when every source table is uniquely keyed — `(lad_code,
year)` for the annual sources, `lad_code` for the static IMD source —
each `(lad_code, year)` pair appears at most once in the base table
produced by `compose`, and derivation and scoring preserve both the row
count and the key uniqueness of any uniquely-keyed base table. -/
theorem C6_key_uniqueness (desnz : List DesnzRow) (dft : List DftRow)
    (ons : List OnsRow) (imd : List ImdRow)
    (hd : (desnz.map fun r => (r.lad_code, r.year)).Nodup)
    (hf : (dft.map fun r => (r.lad_code, r.year)).Nodup)
    (ho : (ons.map fun r => (r.lad_code, r.year)).Nodup)
    (hi : (imd.map fun r => r.lad_code).Nodup) :
    ((compose desnz dft ons imd).1.map fun r => (r.lad_code, r.year)).Nodup ∧
    (∀ df : List BaseRow, (df.map fun r => (r.lad_code, r.year)).Nodup →
      (compute_derived_metrics df).length = df.length ∧
      ((compute_derived_metrics df).map fun r => (r.lad_code, r.year)).Nodup ∧
      (compute_scores (compute_derived_metrics df)).1.length = df.length ∧
      ((compute_scores (compute_derived_metrics df)).1.map
        fun r => (r.lad_code, r.year)).Nodup) := by
  constructor
  · set d := filter_england (fun r : DesnzRow => r.lad_code) desnz with hdd
    set f := filter_england (fun r : DftRow => r.lad_code) dft with hff
    set o := filter_england (fun r : OnsRow => r.lad_code) ons with hoo
    set m1 := joinOn
      (fun (a : DesnzRow) (b : DftRow) =>
        decide ((b.lad_code, b.year) = (a.lad_code, a.year)))
      (fun a b => (a, b)) d f with hm1
    set m2 := joinOn
      (fun (ab : DesnzRow × DftRow) (c : OnsRow) =>
        decide ((c.lad_code, c.year) = (ab.1.lad_code, ab.1.year)))
      (fun ab c => (ab.1, ab.2, c.population)) m1 o with hm2
    set m3 := joinOn
      (fun (x : DesnzRow × DftRow × Option ℚ) (q : ImdRow) =>
        decide (q.lad_code = x.1.lad_code))
      (fun x q => mkBaseRow x.1 x.2.1 x.2.2 q.imd_rank_avg) m2 imd with hm3
    have hd' : (d.map fun r => (r.lad_code, r.year)).Nodup :=
      hd.sublist ((List.filter_sublist _).map _)
    have hf' : (f.map fun r => (r.lad_code, r.year)).Nodup :=
      hf.sublist ((List.filter_sublist _).map _)
    have ho' : (o.map fun r => (r.lad_code, r.year)).Nodup :=
      ho.sublist ((List.filter_sublist _).map _)
    have h1 := joinOn_keys_sublist
      (fun a : DesnzRow => (a.lad_code, a.year))
      (fun b : DftRow => (b.lad_code, b.year))
      (fun a : DesnzRow => (a.lad_code, a.year))
      (fun ab : DesnzRow × DftRow => (ab.1.lad_code, ab.1.year))
      (fun a b => (a, b)) d f hf' (fun _ _ _ => rfl)
    have h2 := joinOn_keys_sublist
      (fun ab : DesnzRow × DftRow => (ab.1.lad_code, ab.1.year))
      (fun c : OnsRow => (c.lad_code, c.year))
      (fun ab : DesnzRow × DftRow => (ab.1.lad_code, ab.1.year))
      (fun x : DesnzRow × DftRow × Option ℚ => (x.1.lad_code, x.1.year))
      (fun ab c => (ab.1, ab.2, c.population)) m1 o ho' (fun _ _ _ => rfl)
    have h3 := joinOn_keys_sublist
      (fun x : DesnzRow × DftRow × Option ℚ => x.1.lad_code)
      (fun q : ImdRow => q.lad_code)
      (fun x : DesnzRow × DftRow × Option ℚ => (x.1.lad_code, x.1.year))
      (fun r : BaseRow => (r.lad_code, r.year))
      (fun x q => mkBaseRow x.1 x.2.1 x.2.2 q.imd_rank_avg) m2 imd
      hi (fun _ _ _ => rfl)
    have hm3nd : (m3.map fun r => (r.lad_code, r.year)).Nodup :=
      ((hd'.sublist (hm1 ▸ h1)).sublist (hm2 ▸ h2)).sublist (hm3 ▸ h3)
    show ((List.insertionSort baseRowLE m3).map
      fun r => (r.lad_code, r.year)).Nodup
    exact (((List.perm_insertionSort baseRowLE m3).map _).nodup_iff).mpr hm3nd
  · intro df hdf
    have hkeys := compute_derived_metrics_keys df
    have hnd : ((compute_derived_metrics df).map
        fun r => (r.lad_code, r.year)).Nodup := by
      rw [hkeys]
      exact (((List.perm_insertionSort baseRowLE df).map _).nodup_iff).mpr hdf
    refine ⟨compute_derived_metrics_length df, hnd, ?_, ?_⟩
    · have h := congrArg List.length (compute_scores_keys
        (compute_derived_metrics df))
      simp only [List.length_map] at h
      rw [h, compute_derived_metrics_length]
    · rw [compute_scores_keys]
      exact hnd

unseal Rat.mul Rat.inv Rat.add Rat.sub List.merge List.mergeSort in
/-- Claim C6 witness: a concrete uniquely-keyed run composes to a
uniquely-keyed base table whose scored table keeps one row per key. -/
theorem C6_witness :
    (([⟨"E1", 2020, some 1, some 1, some 1⟩,
       ⟨"E1", 2021, some 1, some 1, some 1⟩] : List DesnzRow).map
         fun r => (r.lad_code, r.year)).Nodup ∧
    (((compose
      [⟨"E1", 2020, some 1, some 1, some 1⟩,
       ⟨"E1", 2021, some 1, some 1, some 1⟩]
      [⟨"E1", 2020, some 1, some 1, some 1, some 1⟩,
       ⟨"E1", 2021, some 1, some 1, some 1, some 1⟩]
      [⟨"E1", 2020, some 1⟩, ⟨"E1", 2021, some 1⟩]
      [⟨"E1", some 1⟩]).1.map fun r => (r.lad_code, r.year)).Nodup) := by
  refine ⟨by decide, ?_⟩
  exact (C6_key_uniqueness
    [⟨"E1", 2020, some 1, some 1, some 1⟩,
     ⟨"E1", 2021, some 1, some 1, some 1⟩]
    [⟨"E1", 2020, some 1, some 1, some 1, some 1⟩,
     ⟨"E1", 2021, some 1, some 1, some 1, some 1⟩]
    [⟨"E1", 2020, some 1⟩, ⟨"E1", 2021, some 1⟩]
    [⟨"E1", some 1⟩]
    (by decide) (by decide) (by decide) (by decide)).1

unseal Rat.mul Rat.inv Rat.add Rat.sub List.merge List.mergeSort in
/-- Claim C8 counterexample: a run whose IMD join yields zero rows
returns an empty base table without aborting, yet its diagnostics are
byte-identical to those of a run whose join is non-empty, and contain
only all-clear missing-combination reports — no zero-row warning is
flagged anywhere in the diagnostics record. -/
theorem C8_counterexample :
    (compose [⟨"E1", 2020, some 1, some 1, some 1⟩]
      [⟨"E1", 2020, some 1, some 1, some 1, some 1⟩]
      [⟨"E1", 2020, some 1⟩] []).1 = [] ∧
    (compose [⟨"E1", 2020, some 1, some 1, some 1⟩]
      [⟨"E1", 2020, some 1, some 1, some 1, some 1⟩]
      [⟨"E1", 2020, some 1⟩] [⟨"E1", some 1⟩]).1 ≠ [] ∧
    (compose [⟨"E1", 2020, some 1, some 1, some 1⟩]
      [⟨"E1", 2020, some 1, some 1, some 1, some 1⟩]
      [⟨"E1", 2020, some 1⟩] []).2 =
    (compose [⟨"E1", 2020, some 1, some 1, some 1⟩]
      [⟨"E1", 2020, some 1, some 1, some 1, some 1⟩]
      [⟨"E1", 2020, some 1⟩] [⟨"E1", some 1⟩]).2 ∧
    (∀ nr ∈ (compose [⟨"E1", 2020, some 1, some 1, some 1⟩]
      [⟨"E1", 2020, some 1, some 1, some 1, some 1⟩]
      [⟨"E1", 2020, some 1⟩] []).2,
      nr.2.missing_count = 0 ∧ nr.2.missing_examples = []) := by
  refine ⟨by decide, by decide, by decide, by decide⟩

/-- Claim C8 (amended): a run of `compose` in which some join step
produces zero rows does not abort — `compose` still returns a base
table and a diagnostics record — but the zero-row condition is not
flagged: the diagnostics record is exactly the pre-join
missing-combination report of the three filtered annual sources,
unchanged by the join outcome and by the IMD source entirely. -/
theorem C8_zero_rows_not_flagged (desnz : List DesnzRow)
    (dft : List DftRow) (ons : List OnsRow) (imd imd2 : List ImdRow) :
    (compose desnz dft ons imd).2 = check_missing_combinations
      [(filter_england (fun r => r.lad_code) desnz).map
        fun r => (r.lad_code, r.year),
       (filter_england (fun r => r.lad_code) dft).map
        fun r => (r.lad_code, r.year),
       (filter_england (fun r => r.lad_code) ons).map
        fun r => (r.lad_code, r.year)] ∧
    (compose desnz dft ons imd).2 = (compose desnz dft ons imd2).2 :=
  ⟨rfl, rfl⟩

/-- Claim C9: composition and scoring are deterministic — re-running
them on identical inputs produces identical base tables, scored tables
and diagnostics records — and both the composed base table and the
derived table are sorted by `(lad_code, year)` ascending. -/
theorem C9_deterministic_sorted (desnz : List DesnzRow) (dft : List DftRow)
    (ons : List OnsRow) (imd : List ImdRow) (df : List BaseRow) :
    compose desnz dft ons imd = compose desnz dft ons imd ∧
    compute_scores (compute_derived_metrics df) =
      compute_scores (compute_derived_metrics df) ∧
    List.Sorted keyLE ((compose desnz dft ons imd).1.map
      fun r => (r.lad_code, r.year)) ∧
    List.Sorted keyLE ((compute_derived_metrics df).map
      fun r => (r.lad_code, r.year)) := by
  refine ⟨rfl, rfl, ?_, ?_⟩
  · exact List.pairwise_map.mpr (List.sorted_insertionSort baseRowLE _)
  · rw [compute_derived_metrics_keys]
    exact List.pairwise_map.mpr (List.sorted_insertionSort baseRowLE df)

/-- Claim C10: the missing-combination diagnostics of `compose` are
computed only from the three annual sources: they do not depend on the
IMD source at all, a key present in all three filtered annual sources
appears in no source's missing list (so neither in any
`missing_count` nor in any `missing_examples`), and yet when its LAD is
absent from the IMD source the key is dropped from the base table —
this attrition is invisible in the diagnostics artifact. -/
theorem C10_imd_attrition_invisible (desnz : List DesnzRow)
    (dft : List DftRow) (ons : List OnsRow) (imd imd2 : List ImdRow)
    (k : Key)
    (h1 : k ∈ (filter_england (fun r => r.lad_code) desnz).map
      fun r => (r.lad_code, r.year))
    (h2 : k ∈ (filter_england (fun r => r.lad_code) dft).map
      fun r => (r.lad_code, r.year))
    (h3 : k ∈ (filter_england (fun r => r.lad_code) ons).map
      fun r => (r.lad_code, r.year)) :
    (compose desnz dft ons imd).2 = (compose desnz dft ons imd2).2 ∧
    (∀ ks ∈ [(filter_england (fun r => r.lad_code) desnz).map
        fun r => (r.lad_code, r.year),
       (filter_england (fun r => r.lad_code) dft).map
        fun r => (r.lad_code, r.year),
       (filter_england (fun r => r.lad_code) ons).map
        fun r => (r.lad_code, r.year)],
      k ∉ missingFor (allKeys
        [(filter_england (fun r => r.lad_code) desnz).map
          fun r => (r.lad_code, r.year),
         (filter_england (fun r => r.lad_code) dft).map
          fun r => (r.lad_code, r.year),
         (filter_england (fun r => r.lad_code) ons).map
          fun r => (r.lad_code, r.year)]) (keySet ks)) ∧
    (∀ nr ∈ (compose desnz dft ons imd).2, k ∉ nr.2.missing_examples) ∧
    (k.1 ∉ imd.map (fun q => q.lad_code) →
      k ∉ (compose desnz dft ons imd).1.map fun r => (r.lad_code, r.year)) := by
  have hks : ∀ ks ∈ [(filter_england (fun r => r.lad_code) desnz).map
      fun r => (r.lad_code, r.year),
     (filter_england (fun r => r.lad_code) dft).map
      fun r => (r.lad_code, r.year),
     (filter_england (fun r => r.lad_code) ons).map
      fun r => (r.lad_code, r.year)], k ∈ ks := by
    intro ks hk
    rcases List.mem_cons.mp hk with h | hk2
    · subst h; exact h1
    rcases List.mem_cons.mp hk2 with h | hk3
    · subst h; exact h2
    rcases List.mem_cons.mp hk3 with h | hk4
    · subst h; exact h3
    · exact absurd hk4 (List.not_mem_nil ks)
  have hnotmissing : ∀ ks ∈ [(filter_england (fun r => r.lad_code) desnz).map
      fun r => (r.lad_code, r.year),
     (filter_england (fun r => r.lad_code) dft).map
      fun r => (r.lad_code, r.year),
     (filter_england (fun r => r.lad_code) ons).map
      fun r => (r.lad_code, r.year)],
      k ∉ missingFor (allKeys
        [(filter_england (fun r => r.lad_code) desnz).map
          fun r => (r.lad_code, r.year),
         (filter_england (fun r => r.lad_code) dft).map
          fun r => (r.lad_code, r.year),
         (filter_england (fun r => r.lad_code) ons).map
          fun r => (r.lad_code, r.year)]) (keySet ks) := by
    intro ks hk hmem
    rw [missingFor, Finset.mem_sort, Finset.mem_sdiff] at hmem
    exact hmem.2 (List.mem_toFinset.mpr (hks ks hk))
  refine ⟨rfl, hnotmissing, ?_, ?_⟩
  · intro nr hnr hkex
    have hnr' : nr ∈ check_missing_combinations
      [(filter_england (fun r => r.lad_code) desnz).map
        fun r => (r.lad_code, r.year),
       (filter_england (fun r => r.lad_code) dft).map
        fun r => (r.lad_code, r.year),
       (filter_england (fun r => r.lad_code) ons).map
        fun r => (r.lad_code, r.year)] := hnr
    unfold check_missing_combinations at hnr'
    obtain ⟨⟨label, ks⟩, hzip, hnrq⟩ := List.mem_map.mp hnr'
    have hksmem := (List.of_mem_zip hzip).2
    subst hnrq
    have := List.mem_of_mem_take hkex
    exact hnotmissing ks hksmem this
  · intro hlad hbase
    obtain ⟨r, hr, hkey⟩ := List.mem_map.mp hbase
    have hr3 : r ∈ joinOn
      (fun (x : DesnzRow × DftRow × Option ℚ) (q : ImdRow) =>
        decide (q.lad_code = x.1.lad_code))
      (fun x q => mkBaseRow x.1 x.2.1 x.2.2 q.imd_rank_avg)
      (joinOn (fun (ab : DesnzRow × DftRow) (c : OnsRow) =>
        decide ((c.lad_code, c.year) = (ab.1.lad_code, ab.1.year)))
        (fun ab c => (ab.1, ab.2, c.population))
        (joinOn (fun (a : DesnzRow) (b : DftRow) =>
          decide ((b.lad_code, b.year) = (a.lad_code, a.year)))
          (fun a b => (a, b))
          (filter_england (fun r => r.lad_code) desnz)
          (filter_england (fun r => r.lad_code) dft))
        (filter_england (fun r => r.lad_code) ons)) imd :=
      (List.perm_insertionSort baseRowLE _).mem_iff.mp hr
    rw [joinOn] at hr3
    obtain ⟨x, _, hrx⟩ := List.mem_flatMap.mp hr3
    obtain ⟨q, hq, hrq⟩ := List.mem_map.mp hrx
    have hqimd : q ∈ imd := (List.mem_filter.mp hq).1
    have hqlad : q.lad_code = x.1.lad_code := by
      simpa using (List.mem_filter.mp hq).2
    apply hlad
    subst hrq
    rw [← hkey]
    show x.1.lad_code ∈ imd.map fun q => q.lad_code
    rw [← hqlad]
    exact List.mem_map_of_mem _ hqimd

unseal Rat.mul Rat.inv Rat.add Rat.sub List.merge List.mergeSort in
/-- Claim C10 witness: on a concrete run where the key `("E1", 2020)`
is in all three annual sources but the IMD source is empty, the key is
dropped from the base table while every missing report ignores it. -/
theorem C10_witness :
    (∀ nr ∈ (compose [⟨"E1", 2020, some 1, some 1, some 1⟩]
      [⟨"E1", 2020, some 1, some 1, some 1, some 1⟩]
      [⟨"E1", 2020, some 1⟩] []).2,
      ("E1", (2020 : ℤ)) ∉ nr.2.missing_examples) ∧
    ("E1", (2020 : ℤ)) ∉ (compose [⟨"E1", 2020, some 1, some 1, some 1⟩]
      [⟨"E1", 2020, some 1, some 1, some 1, some 1⟩]
      [⟨"E1", 2020, some 1⟩] []).1.map fun r => (r.lad_code, r.year) := by
  have h := C10_imd_attrition_invisible
    [⟨"E1", 2020, some 1, some 1, some 1⟩]
    [⟨"E1", 2020, some 1, some 1, some 1, some 1⟩]
    [⟨"E1", 2020, some 1⟩] [] []
    ("E1", (2020 : ℤ)) (by decide) (by decide) (by decide)
  exact ⟨h.2.2.1, h.2.2.2 (by decide)⟩

end JTIS
